import Mathlib

/-!
Verification of the CSV ingestion pipeline in
`src/day06_pipes_contextlib_logging.py`.

The Python module is shallowly embedded here:

* Python `str.strip`, `int(...)` and `decimal.Decimal(...)` string parsing
  are modelled as executable Lean functions over `String`/`List Char`.
* `decimal.Decimal` values are modelled by `PyDec`: a finite value is a
  signed coefficient together with a base-10 exponent; the special values
  `NaN` (including `sNaN`) and signed infinity are modelled explicitly
  because the `Decimal` constructor accepts them.  Arithmetic follows the
  default decimal context: exact results are passed through a model of
  `Decimal._fix` — rounded half-even to `DECIMAL_PREC` (28) significant
  digits, subnormal results rounded at `Etiny` (`Underflow` is untrapped),
  zero exponents clamped into `[Etiny, Emax]`.  Operations that signal a
  trapped condition (`InvalidOperation`, `Overflow`) return `none`.
* The `csv.DictReader` record lookup (`dict(zip(fieldnames, row))` with
  `restval = None`, last binding winning for duplicate column names, blank
  rows skipped) is modelled by `dictGet` and `effectiveRecords`.
* `run_pipeline`'s file-system effects are modelled by an explicit `World`
  state plus a trace of `PEvent`s; fatal exceptions become the `PErr`
  error type of an `Except` result.
-/

/-! ## Python string and number primitives -/

/-- Whitespace characters removed by Python `str.strip()` (ASCII range;
exotic Unicode whitespace is outside the scope of this model). -/
def isPySpace (c : Char) : Bool :=
  c = ' ' || c = '\t' || c = '\n' || c = '\r' || c = '\x0b' || c = '\x0c'

/-- Python `str.strip()`. -/
def pyStrip (s : String) : String :=
  String.mk (((s.toList.dropWhile isPySpace).reverse.dropWhile isPySpace).reverse)

/-- Tail of a digit group: a sequence of digits in which single underscores
may be interposed between digits (`digitpart ::= digit (["_"] digit)*`). -/
def digitsTail : List Char → Bool
  | [] => true
  | '_' :: c :: cs => c.isDigit && digitsTail cs
  | c :: cs => c.isDigit && digitsTail cs

/-- A (non-empty) digit group as accepted by Python numeric literals:
starts and ends with a digit, single underscores allowed in between. -/
def digitGroup : List Char → Bool
  | [] => false
  | c :: cs => c.isDigit && digitsTail cs

/-- Numeric value of a digit group (underscores ignored). -/
def digitsVal (ds : List Char) : Nat :=
  (ds.filter (fun c => c ≠ '_')).foldl (fun a c => 10 * a + (c.toNat - 48)) 0

/-- Python `int(s)` restricted to ASCII base-10 literals: optional
surrounding whitespace, optional sign, then a digit group.  Returns `none`
where `int` raises `ValueError`. -/
def pyInt? (s : String) : Option Int :=
  match (pyStrip s).toList with
  | '+' :: ds => if digitGroup ds then some ((digitsVal ds : Int)) else none
  | '-' :: ds => if digitGroup ds then some (-(digitsVal ds : Int)) else none
  | ds => if digitGroup ds then some ((digitsVal ds : Int)) else none

/-- The one-character string for the ASCII apostrophe (codepoint 39). -/
def squote : Char := Char.ofNat 39

/-- Escape a string for Python `repr` output with quote character `q`:
backslashes and the quote character are escaped.  Control-character
escaping is outside the scope of this model. -/
def escapeFor (q : Char) (s : String) : String :=
  String.mk (s.toList.foldr
    (fun c acc => if c = '\\' || c = q then '\\' :: c :: acc else c :: acc) [])

/-- Python `repr` of a string: single quotes, switching to double quotes
when the string contains a single quote but no double quote. -/
def pyRepr (s : String) : String :=
  if s.toList.contains squote && !(s.toList.contains '"') then
    "\"" ++ escapeFor '"' s ++ "\""
  else
    String.mk [squote] ++ escapeFor squote s ++ String.mk [squote]

/-! ## The `decimal.Decimal` model -/

/-- A Python `decimal.Decimal` value: a finite value `m × 10 ^ e`
(the coefficient's sign is carried by `m`), an infinity, or NaN
(quiet and signaling NaN are identified; both make comparisons signal). -/
inductive PyDec where
  | fin (m : Int) (e : Int)
  | inf (neg : Bool)
  | nan
deriving DecidableEq, Repr

/-- Split a character list at the first `.`. -/
def splitOnDot : List Char → List Char × Option (List Char)
  | [] => ([], none)
  | c :: rest =>
    if c = '.' then ([], some rest)
    else
      match splitOnDot rest with
      | (a, b) => (c :: a, b)

/-- Split a character list at the first exponent indicator `e`/`E`. -/
def splitOnExp : List Char → List Char × Option (List Char)
  | [] => ([], none)
  | c :: rest =>
    if c = 'e' || c = 'E' then ([], some rest)
    else
      match splitOnExp rest with
      | (a, b) => (c :: a, b)

/-- Parse an exponent: optional sign followed by a digit group. -/
def expVal? : List Char → Option Int
  | '+' :: ds => if digitGroup ds then some ((digitsVal ds : Int)) else none
  | '-' :: ds => if digitGroup ds then some (-(digitsVal ds : Int)) else none
  | ds => if digitGroup ds then some ((digitsVal ds : Int)) else none

/-- Parse the numeric (non-special) body of a `Decimal` literal:
`decimal-part [exponent-part]` with
`decimal-part ::= digits ["." [digits]] | "." digits`. -/
def decNumeric? (neg : Bool) (body : List Char) : Option PyDec :=
  match splitOnExp body with
  | (mant, expPart?) =>
    match (match expPart? with | none => some (0 : Int) | some ec => expVal? ec) with
    | none => none
    | some ex =>
      match splitOnDot mant with
      | (ip, fp?) =>
        let fp := fp?.getD []
        if (digitGroup ip && (fp = [] || digitGroup fp)) || (ip = [] && digitGroup fp) then
          let coeff : Nat := digitsVal (ip ++ fp)
          let scale : Nat := (fp.filter (fun c => c ≠ '_')).length
          some (.fin (if neg then -(coeff : Int) else (coeff : Int)) (ex - (scale : Int)))
        else none

/-- Parse the body of a `Decimal` literal after the optional sign:
`Inf`/`Infinity`, `NaN`/`sNaN` with optional digit payload (all
case-insensitive), or a numeric value. -/
def decBody? (neg : Bool) (body : List Char) : Option PyDec :=
  let lower := body.map Char.toLower
  if lower = ['i', 'n', 'f'] || lower = ['i', 'n', 'f', 'i', 'n', 'i', 't', 'y'] then
    some (.inf neg)
  else
    match lower with
    | 'n' :: 'a' :: 'n' :: rest =>
      if rest = [] || digitGroup rest then some .nan else decNumeric? neg body
    | 's' :: 'n' :: 'a' :: 'n' :: rest =>
      if rest = [] || digitGroup rest then some .nan else decNumeric? neg body
    | _ => decNumeric? neg body

/-- Python `Decimal(s)` for a string argument: optional surrounding
whitespace, optional sign, then a special value or a numeric value.
Returns `none` where the constructor signals `InvalidOperation`
(`ConversionSyntax`), which the default context raises. -/
def pyDecimal? (s : String) : Option PyDec :=
  match (pyStrip s).toList with
  | '+' :: body => decBody? false body
  | '-' :: body => decBody? true body
  | body => decBody? false body

/-- Precision of the default decimal context (`getcontext().prec`). -/
def DECIMAL_PREC : Nat := 28

/-- Number of decimal digits of a coefficient (`0` has one digit). -/
def nDigits (n : Nat) : Nat := (Nat.toDigits 10 n).length

/-- `Emax` of the default decimal context. -/
def DECIMAL_EMAX : Int := 999999

/-- `Emin` of the default decimal context. -/
def DECIMAL_EMIN : Int := -999999

/-- `Etiny = Emin - prec + 1`, the smallest exponent a (subnormal) result
may carry. -/
def DECIMAL_ETINY : Int := DECIMAL_EMIN - (DECIMAL_PREC : Int) + 1

/-- `Etop = Emax - prec + 1`, the largest exponent a full-precision
result may carry. -/
def DECIMAL_ETOP : Int := DECIMAL_EMAX - (DECIMAL_PREC : Int) + 1

/-- Round the exact value `m × 10 ^ e` to the exponent `target > e` with
`ROUND_HALF_EVEN` (the default rounding); when the rounded coefficient
carries into a 29th digit, the trailing zero is dropped and the exponent
bumped, raising `Overflow` (`none`) past `Etop` — as `Decimal._fix` does. -/
def roundAt (m e target : Int) : Option PyDec :=
  let k := (target - e).toNat
  let q := m.natAbs / 10 ^ k
  let r := m.natAbs % 10 ^ k
  let half := 5 * 10 ^ (k - 1)
  let q2 :=
    if half < r then q + 1
    else if r < half then q
    else if q % 2 = 1 then q + 1 else q
  if DECIMAL_PREC < nDigits q2 then
    if DECIMAL_ETOP < target + 1 then none
    else some (.fin (if m < 0 then -((q2 / 10 : Nat) : Int) else ((q2 / 10 : Nat) : Int)) (target + 1))
  else some (.fin (if m < 0 then -(q2 : Int) else (q2 : Int)) target)

/-- `Decimal._fix` of the default context applied to the exact finite
result `m × 10 ^ e` of an operation: a zero has its exponent clamped into
`[Etiny, Emax]`; a nonzero result whose rounded exponent would exceed
`Etop` raises `Overflow` (trapped by default, so `none`); a subnormal
result (adjusted exponent below `Emin`) is rounded at `Etiny`, possibly to
zero (`Underflow` is not trapped); otherwise the coefficient is rounded to
`DECIMAL_PREC` significant digits, exact results returned unchanged. -/
def decFix (m e : Int) : Option PyDec :=
  if m = 0 then
    some (.fin 0 (min (max e DECIMAL_ETINY) DECIMAL_EMAX))
  else
    if DECIMAL_ETOP < (nDigits m.natAbs : Int) + e - (DECIMAL_PREC : Int) then
      none
    else
      if e < (if e + (nDigits m.natAbs : Int) - 1 < DECIMAL_EMIN then DECIMAL_ETINY
              else (nDigits m.natAbs : Int) + e - (DECIMAL_PREC : Int)) then
        roundAt m e (if e + (nDigits m.natAbs : Int) - 1 < DECIMAL_EMIN then DECIMAL_ETINY
                     else (nDigits m.natAbs : Int) + e - (DECIMAL_PREC : Int))
      else
        some (.fin m e)

/-- Decimal multiplication under the default context: the exact
coefficient product, passed through `decFix` (rounding, underflow and the
trapped `Overflow`).  `none` also models the raised `InvalidOperation` on
`0 × ∞`; quiet NaN propagates silently. -/
def decMul : PyDec → PyDec → Option PyDec
  | .nan, _ => some .nan
  | _, .nan => some .nan
  | .inf s, .inf t => some (.inf (s != t))
  | .inf s, .fin m _ => if m = 0 then none else some (.inf (s != decide (m < 0)))
  | .fin m _, .inf s => if m = 0 then none else some (.inf (s != decide (m < 0)))
  | .fin m1 e1, .fin m2 e2 => decFix (m1 * m2) (e1 + e2)

/-- Exact coefficient of the sum `m1 × 10 ^ e1 + m2 × 10 ^ e2` expressed
at the aligned exponent `min e1 e2`. -/
def alignAdd (m1 e1 m2 e2 : Int) : Int :=
  m1 * ((10 ^ ((e1 - min e1 e2).toNat) : Nat) : Int)
    + m2 * ((10 ^ ((e2 - min e1 e2).toNat) : Nat) : Int)

/-- Decimal addition under the default context: operands are aligned
exactly, added, and the exact sum passed through `decFix` (rounding,
underflow and the trapped `Overflow`).  `none` also models the raised
`InvalidOperation` on `∞ + (−∞)`. -/
def decAdd : PyDec → PyDec → Option PyDec
  | .nan, _ => some .nan
  | _, .nan => some .nan
  | .inf s, .inf t => if s = t then some (.inf s) else none
  | .inf s, .fin _ _ => some (.inf s)
  | .fin _ _, .inf s => some (.inf s)
  | .fin m1 e1, .fin m2 e2 =>
    decFix (alignAdd m1 e1 m2 e2) (min e1 e2)

/-- The comparison `d < 0` on a `Decimal`.  On NaN the comparison signals
`InvalidOperation` (raised under the default traps), modelled as `none`. -/
def decLtZero : PyDec → Option Bool
  | .nan => none
  | .inf s => some s
  | .fin m _ => some (decide (m < 0))

/-- Exact rational value of a finite decimal `m × 10 ^ e`. -/
def finValQ (m e : Int) : ℚ := (m : ℚ) * (10 : ℚ) ^ e

/-- Exact rational value of a `Decimal`; `none` for NaN and infinities. -/
def decValQ : PyDec → Option ℚ
  | .fin m e => some (finValQ m e)
  | _ => none

/-! ## Domain model (`Row`, `Stats`) -/

/-- One validated record (`@dataclass Row`). -/
structure Row where
  sku : String
  qty : Int
  unit_price : PyDec
deriving DecidableEq, Repr

/-- The run summary (`@dataclass Stats`). -/
structure Stats where
  rows_in : Int
  rows_out : Int
  total_qty : Int
  gross_revenue : PyDec
deriving DecidableEq, Repr

/-- The input CSV after text decoding and CSV parsing: `header?` is the
first line's cells (`none` models an empty file, where
`DictReader.fieldnames` is `None`), `records` are the remaining lines'
cells. -/
structure CsvFile where
  header? : Option (List String)
  records : List (List String)
deriving DecidableEq, Repr

/-- Index of the last occurrence of `c` in `xs`. -/
def lastIdxOf (xs : List String) (c : String) : Option Nat :=
  ((xs.enum.filter (fun p => p.2 = c)).map (fun p => p.1)).getLast?

/-- `raw.get(col)` on a `csv.DictReader` row: the row dict is
`dict(zip(fieldnames, cells))` (last binding wins for duplicated column
names) with missing values filled by `restval = None`. -/
def dictGet (fieldnames cells : List String) (col : String) : Option String :=
  (lastIdxOf fieldnames col).bind (fun i => cells[i]?)

/-- `REQUIRED_COLUMNS` (a Python set, modelled as a duplicate-free list). -/
def REQUIRED_COLUMNS : List String := ["sku", "qty", "unit_price"]

/-- The `fieldnames` passed to the output `csv.DictWriter`. -/
def OUTPUT_FIELDNAMES : List String := ["sku", "qty", "unit_price"]

/-! ## The validator (body of the loop in `parse_rows`) -/

/-- Outcome of validating one raw record at line `i`:
a `Row`, a caught `ValidationErr` (line number and message), or an
uncaught `decimal.InvalidOperation` (the `unit_price < 0` comparison on a
NaN), which escapes the generator. -/
inductive ValResult where
  | row (r : Row)
  | invalid (line_no : Nat) (msg : String)
  | invalidOp
deriving DecidableEq, Repr

/-- The per-record checks 1–5 of `parse_rows` (source lines 164–198),
first failure winning.  `(raw.get(c) or "").strip()` is modelled by
`pyStrip ((dictGet fns cells c).getD "")`. -/
def validate_record (fns : List String) (i : Nat) (cells : List String) : ValResult :=
  if pyStrip ((dictGet fns cells "sku").getD "") = "" then
    .invalid i "sku must be non-empty"
  else
    match pyInt? (pyStrip ((dictGet fns cells "qty").getD "")) with
    | none =>
      .invalid i ("qty must be an integer (got "
        ++ pyRepr (pyStrip ((dictGet fns cells "qty").getD "")) ++ ")")
    | some qty =>
      if qty ≤ 0 then .invalid i "qty must be > 0"
      else
        match pyDecimal? (pyStrip ((dictGet fns cells "unit_price").getD "")) with
        | none =>
          .invalid i ("unit_price must be a decimal number (got "
            ++ pyRepr (pyStrip ((dictGet fns cells "unit_price").getD "")) ++ ")")
        | some price =>
          match decLtZero price with
          | none => .invalidOp
          | some b =>
            if b then .invalid i "unit_price must be >= 0"
            else .row ⟨pyStrip ((dictGet fns cells "sku").getD ""), qty, price⟩

/-! ## The pipeline (`run_pipeline`) -/

/-- Fatal outcomes of `run_pipeline`: the three `PipelineErr` kinds it can
raise, plus the uncaught `decimal.InvalidOperation` that escapes when a
NaN `unit_price` reaches the `< 0` comparison (caught neither by
`except ValidationErr` nor by `except OSError`). -/
inductive PErr where
  | inputNotFound (msg : String)
  | inputFormat (msg : String)
  | outputWrite (msg : String)
  | invalidOperation
deriving DecidableEq, Repr

/-- Observable I/O events of one run, in order. -/
inductive PEvent where
  | openInput
  | openCleanOut
  | writeHeader
  | writeRow (r : Row)
  | closeStreams
  | writeStats
deriving DecidableEq, Repr

/-- The cleaned-output CSV artifact: header plus one line per written row. -/
structure CleanFile where
  header : List String
  rows : List Row
deriving DecidableEq, Repr

/-- File-system state touched by `run_pipeline`: the two output artifacts
(`none` = absent) and whether the output parent directories exist. -/
structure World where
  cleanOut : Option CleanFile
  statsOut : Option Stats
  outDirsExist : Bool
deriving DecidableEq, Repr

/-- The run's environment: whether the input path exists, the parsed
input, the path strings used in error messages, and whether writing the
stats JSON succeeds (`False` models an `OSError` from `write_text`). -/
structure Env where
  inputExists : Bool
  input : CsvFile
  inputPath : String
  statsPath : String
  statsWriteOk : Bool
deriving Repr

/-- Accumulator of the orchestrator loop (source lines 230–260): the four
counters, the rows written to the clean output so far, and the events so
far. -/
structure LoopAcc where
  rows_in : Int
  rows_out : Int
  total_qty : Int
  gross : PyDec
  written : List Row
  events : List PEvent
deriving Repr

/-- Initial accumulator: counters zero, `gross = Decimal("0")`. -/
def initAcc : LoopAcc := ⟨0, 0, 0, .fin 0 0, [], []⟩

/-- Rows yielded by the underlying `csv` reader after the header, with
blank rows skipped as `DictReader.__next__` does. -/
def effectiveRecords (f : CsvFile) : List (List String) :=
  f.records.filter (fun r => r ≠ [])

/-- The `for row in parse_rows(reader)` loop of `run_pipeline`: validation
failures are logged and skipped inside the generator; on success the four
counters are updated and the row is written.  A second component `some e`
reports an exception escaping the loop. -/
def pipeline_loop (fns : List String) : Nat → List (List String) → LoopAcc →
    LoopAcc × Option PErr
  | _, [], a => (a, none)
  | i, cells :: rest, a =>
    match validate_record fns i cells with
    | .invalid _ _ => pipeline_loop fns (i + 1) rest a
    | .invalidOp => (a, some .invalidOperation)
    | .row r =>
      match decMul (.fin r.qty 0) r.unit_price with
      | none => (a, some .invalidOperation)
      | some p =>
        match decAdd a.gross p with
        | none => (a, some .invalidOperation)
        | some g =>
          pipeline_loop fns (i + 1) rest
            { rows_in := a.rows_in + 1, rows_out := a.rows_out + 1,
              total_qty := a.total_qty + r.qty, gross := g,
              written := a.written ++ [r], events := a.events ++ [.writeRow r] }

/-- Insert into a list sorted by Python string `<` (code-point
lexicographic, as Lean's `String` order). -/
def insertSortedStr (x : String) : List String → List String
  | [] => [x]
  | y :: ys => if x < y then x :: y :: ys else y :: insertSortedStr x ys

/-- Python `sorted` on a list of strings. -/
def pySortStr : List String → List String
  | [] => []
  | x :: xs => insertSortedStr x (pySortStr xs)

/-- Python `repr` of a list of strings, as interpolated by an f-string. -/
def pyListRepr (xs : List String) : String :=
  "[" ++ String.intercalate ", " (xs.map pyRepr) ++ "]"

/-- `run_pipeline(input_csv, out_clean_csv, out_stats_json)` (source lines
212–307).  The header validation written at the top of `parse_rows`
executes at the generator's first iteration, i.e. after the clean-output
header has been written; it is modelled at that point.  Mid-pass `OSError`
(wrapped into `InputFormatErr` by the outer handler) has no trigger in
this model: the environment only injects input absence and stats-write
failure. -/
def run_pipeline (env : Env) (w : World) :
    Except PErr Stats × World × List PEvent :=
  if env.inputExists = false then
    (.error (.inputNotFound ("Input file not found: " ++ env.inputPath)), w, [])
  else
    match env.input.header? with
    | none =>
      (.error (.inputFormat "CSV has no header row (fieldnames missing)."),
       { w with outDirsExist := true, cleanOut := some ⟨OUTPUT_FIELDNAMES, []⟩ },
       [.openInput, .openCleanOut, .writeHeader, .closeStreams])
    | some fns =>
      if REQUIRED_COLUMNS.filter (fun c => !(fns.contains c)) ≠ [] then
        (.error (.inputFormat ("CSV missing required columns: "
           ++ pyListRepr (pySortStr (REQUIRED_COLUMNS.filter (fun c => !(fns.contains c)))))),
         { w with outDirsExist := true, cleanOut := some ⟨OUTPUT_FIELDNAMES, []⟩ },
         [.openInput, .openCleanOut, .writeHeader, .closeStreams])
      else
        match pipeline_loop fns 2 (effectiveRecords env.input) initAcc with
        | (acc, some e) =>
          (.error e,
           { w with outDirsExist := true,
                    cleanOut := some ⟨OUTPUT_FIELDNAMES, acc.written⟩ },
           [PEvent.openInput, PEvent.openCleanOut, PEvent.writeHeader]
             ++ acc.events ++ [PEvent.closeStreams])
        | (acc, none) =>
          if env.statsWriteOk then
            (.ok ⟨acc.rows_in, acc.rows_out, acc.total_qty, acc.gross⟩,
             { w with outDirsExist := true,
                      cleanOut := some ⟨OUTPUT_FIELDNAMES, acc.written⟩,
                      statsOut := some ⟨acc.rows_in, acc.rows_out, acc.total_qty, acc.gross⟩ },
             [PEvent.openInput, PEvent.openCleanOut, PEvent.writeHeader]
               ++ acc.events ++ [PEvent.closeStreams, PEvent.writeStats])
          else
            (.error (.outputWrite ("Failed to write stats JSON: " ++ env.statsPath)),
             { w with outDirsExist := true,
                      cleanOut := some ⟨OUTPUT_FIELDNAMES, acc.written⟩ },
             [PEvent.openInput, PEvent.openCleanOut, PEvent.writeHeader]
               ++ acc.events ++ [PEvent.closeStreams, PEvent.writeStats])

/-! ## Specification-side definitions

These reformulate what the spec asserts (counts and sums over the records
that pass validation) so the pipeline can be compared against them. -/

/-- The `Row` a raw record validates to, if any (the line number does not
affect acceptance, see `validate_record_eq_withLine`). -/
def rowOf? (fns : List String) (cells : List String) : Option Row :=
  match validate_record fns 2 cells with
  | .row r => some r
  | _ => none

/-- The rows that pass all five validation checks, in input order. -/
def acceptedRows (fns : List String) (recs : List (List String)) : List Row :=
  recs.filterMap (rowOf? fns)

/-- The rows of an input file that pass validation, in input order. -/
def acceptedOf (fns : List String) (f : CsvFile) : List Row :=
  acceptedRows fns (effectiveRecords f)

/-- Exact rational value of a row's `unit_price` (0 for non-finite values,
which the hypotheses of the theorems using this exclude). -/
def priceQ (r : Row) : ℚ :=
  match r.unit_price with
  | .fin m e => finValQ m e
  | _ => 0

/-- Spec-side exact revenue: `Σ (qty_i * unit_price_i)` over a list of
rows, in exact rational arithmetic. -/
def exactSum : List Row → ℚ
  | [] => 0
  | r :: rs => (r.qty : ℚ) * priceQ r + exactSum rs

/-- Spec-side exact revenue of an input file: the exact sum over its
accepted rows only. -/
def exactGrossOf (fns : List String) (f : CsvFile) : ℚ :=
  exactSum (acceptedOf fns f)

/-- Spec-side exact quantity total over a list of rows. -/
def sumQty : List Row → Int
  | [] => 0
  | r :: rs => r.qty + sumQty rs

/-! ## Validator lemmas -/

/-- Replace the line number recorded in a validation failure. -/
def withLine (i : Nat) : ValResult → ValResult
  | .invalid _ m => .invalid i m
  | r => r

/-- The line number only decorates the failure message: validation at line
`i` is validation at line 0 with the line number replaced. -/
theorem validate_record_eq_withLine (fns : List String) (i : Nat) (cells : List String) :
    validate_record fns i cells = withLine i (validate_record fns 0 cells) := by
  unfold validate_record
  by_cases h1 : pyStrip ((dictGet fns cells "sku").getD "") = ""
  · simp [h1, withLine]
  · simp only [h1, if_false]
    rcases h2 : pyInt? (pyStrip ((dictGet fns cells "qty").getD "")) with _ | qty
    · simp [h2, withLine]
    · simp only [h2]
      by_cases h3 : qty ≤ 0
      · simp [h3, withLine]
      · simp only [h3, if_false]
        rcases h4 : pyDecimal? (pyStrip ((dictGet fns cells "unit_price").getD "")) with _ | p
        · simp [h4, withLine]
        · simp only [h4]
          rcases h5 : decLtZero p with _ | b
          · simp [h5, withLine]
          · rcases b <;> simp [h5, withLine]

/-- The revenue accumulation `gross += Decimal(row.qty) * row.unit_price`
folded over a list of accepted rows (`none` = a raised
`InvalidOperation`). -/
def grossOf : List Row → PyDec → Option PyDec
  | [], g => some g
  | r :: rs, g =>
    match decMul (.fin r.qty 0) r.unit_price with
    | none => none
    | some p =>
      match decAdd g p with
      | none => none
      | some g2 => grossOf rs g2

/-! ## Loop invariants -/

/-- A completed (exception-free) run of the orchestrator loop counts,
sums, accumulates and writes exactly the accepted rows, in order:
both row counters advance by the number of accepted rows, `total_qty` by
their quantity sum, `gross` by the folded revenue accumulation, and the
written rows and row events are exactly the accepted rows. -/
theorem pipeline_loop_spec (fns : List String) (recs : List (List String)) :
    ∀ (i : Nat) (a a' : LoopAcc), pipeline_loop fns i recs a = (a', none) →
      a'.rows_in = a.rows_in + (acceptedRows fns recs).length ∧
      a'.rows_out = a.rows_out + (acceptedRows fns recs).length ∧
      a'.total_qty = a.total_qty + sumQty (acceptedRows fns recs) ∧
      grossOf (acceptedRows fns recs) a.gross = some a'.gross ∧
      a'.written = a.written ++ acceptedRows fns recs ∧
      a'.events = a.events ++ (acceptedRows fns recs).map PEvent.writeRow := by
  induction recs with
  | nil =>
    intro i a a' h
    simp only [pipeline_loop, Prod.mk.injEq] at h
    simp [← h.1, acceptedRows, sumQty, grossOf]
  | cons c rest ih =>
    intro i a a' h
    have hv := validate_record_eq_withLine fns i c
    have hv2 := validate_record_eq_withLine fns 2 c
    rcases hbase : validate_record fns 0 c with r | ⟨n, m⟩ | _
    · rw [hbase] at hv hv2
      simp only [withLine] at hv hv2
      have hrow : rowOf? fns c = some r := by simp [rowOf?, hv2]
      simp only [pipeline_loop, hv] at h
      rcases hm : decMul (.fin r.qty 0) r.unit_price with _ | p
      · simp only [hm] at h; simp at h
      · simp only [hm] at h
        rcases ha : decAdd a.gross p with _ | g2
        · simp only [ha] at h; simp at h
        · simp only [ha] at h
          obtain ⟨h1, h2, h3, h4, h5, h6⟩ := ih (i + 1) _ a' h
          simp only [acceptedRows, List.filterMap_cons, hrow] at *
          refine ⟨by simp at h1 ⊢; omega, by simp at h2 ⊢; omega,
                  by simp [sumQty] at h3 ⊢; omega, ?_, ?_, ?_⟩
          · simp only [grossOf, hm, ha]
            exact h4
          · simp only [h5]; simp
          · simp only [h6]; simp
    · rw [hbase] at hv hv2
      simp only [withLine] at hv hv2
      have hrow : rowOf? fns c = none := by simp [rowOf?, hv2]
      simp only [pipeline_loop, hv] at h
      have := ih (i + 1) a a' h
      simpa [acceptedRows, List.filterMap_cons, hrow] using this
    · rw [hbase] at hv hv2
      simp only [withLine] at hv hv2
      simp only [pipeline_loop, hv] at h
      simp at h

/-- Every event recorded by the loop (in either outcome) is either an
event already present on entry or a row write. -/
theorem pipeline_loop_events (fns : List String) (recs : List (List String)) :
    ∀ (i : Nat) (a : LoopAcc), ∀ ev ∈ ((pipeline_loop fns i recs a).1).events,
      ev ∈ a.events ∨ ∃ r, ev = PEvent.writeRow r := by
  induction recs with
  | nil => intro i a ev h; exact Or.inl h
  | cons c rest ih =>
    intro i a ev h
    simp only [pipeline_loop] at h
    rcases hval : validate_record fns i c with r | ⟨n, m⟩ | _
    · simp only [hval] at h
      rcases hm : decMul (.fin r.qty 0) r.unit_price with _ | p
      · simp only [hm] at h; exact Or.inl h
      · simp only [hm] at h
        rcases ha : decAdd a.gross p with _ | g2
        · simp only [ha] at h; exact Or.inl h
        · simp only [ha] at h
          rcases ih (i + 1) _ ev h with hmem | hr
          · simp only [List.mem_append, List.mem_singleton] at hmem
            rcases hmem with hmem | hmem
            · exact Or.inl hmem
            · exact Or.inr ⟨r, hmem⟩
          · exact Or.inr hr
    · simp only [hval] at h
      exact ih (i + 1) a ev h
    · simp only [hval] at h
      exact Or.inl h

/-- Inversion of a successful run: the input existed, all required columns
were present, the loop completed without an escaping exception, the stats
are the final accumulator's four counters, and the stats write succeeded. -/
theorem run_pipeline_ok_inv (env : Env) (w : World) (stats : Stats) (fns : List String)
    (hh : env.input.header? = some fns)
    (hrun : (run_pipeline env w).1 = .ok stats) :
    ∃ acc, pipeline_loop fns 2 (effectiveRecords env.input) initAcc = (acc, none) ∧
      stats = ⟨acc.rows_in, acc.rows_out, acc.total_qty, acc.gross⟩ ∧
      REQUIRED_COLUMNS.filter (fun c => !(fns.contains c)) = [] ∧
      env.statsWriteOk = true := by
  unfold run_pipeline at hrun
  cases hex : env.inputExists with
  | false => simp [hex] at hrun
  | true =>
    simp only [hex, Bool.true_eq_false, if_false] at hrun
    rw [hh] at hrun
    by_cases hm : REQUIRED_COLUMNS.filter (fun c => !(fns.contains c)) = []
    · simp only [hm, ne_eq, not_true_eq_false, if_false] at hrun
      rcases hpl : pipeline_loop fns 2 (effectiveRecords env.input) initAcc with ⟨acc, e?⟩
      rw [hpl] at hrun
      cases e? with
      | some e => simp at hrun
      | none =>
        cases hsw : env.statsWriteOk with
        | false => simp [hsw] at hrun
        | true =>
          simp only [hsw, if_true] at hrun
          exact ⟨acc, rfl, by simp at hrun; exact hrun.symm, hm, rfl⟩
    · simp only [ne_eq, hm, not_false_eq_true, if_true] at hrun
      simp at hrun

/-! ## Concrete fixtures -/

/-- A file-system state with no pre-existing output artifacts. -/
def worldEmpty : World := ⟨none, none, false⟩

/-- The header of the worked example. -/
def sampleHeader : List String := ["sku", "qty", "unit_price"]

/-- The worked example input of spec §8: one valid row, an empty-sku row,
a zero-qty row, another valid row. -/
def csvExample : CsvFile :=
  ⟨some sampleHeader,
   [["A1", "2", "3.50"], ["", "1", "1.00"], ["A2", "0", "5.00"], ["A3", "3", "2.00"]]⟩

/-- Environment running the worked example. -/
def envExample : Env := ⟨true, csvExample, "data/input.csv", "out/stats.json", true⟩

/-! ## Claims -/

/-- C1: for every input whose header contains the required columns, a
returned `Stats` satisfies `rows_in = rows_out`, and both equal the number
of data records that pass all five validation checks (not that number plus
the rejected count): both counters are incremented only on the
successfully-validated branch. -/
theorem c1_rows_in_equals_rows_out (env : Env) (w : World) (stats : Stats) (fns : List String)
    (hh : env.input.header? = some fns)
    (hrun : (run_pipeline env w).1 = .ok stats) :
    stats.rows_in = stats.rows_out ∧
    stats.rows_in = ((acceptedOf fns env.input).length : Int) := by
  obtain ⟨acc, hpl, hstats, -, -⟩ := run_pipeline_ok_inv env w stats fns hh hrun
  obtain ⟨h1, h2, -, -, -, -⟩ :=
    pipeline_loop_spec fns (effectiveRecords env.input) 2 initAcc acc hpl
  subst hstats
  simp only [acceptedOf, initAcc] at h1 h2 ⊢
  constructor <;> omega

/-- Witness for C1 at the worked example: the header is present, the run
returns `Stats 2 2 5 13.00`, and both counters equal the 2 accepted rows. -/
theorem c1_rows_in_equals_rows_out_witness :
    envExample.input.header? = some sampleHeader ∧
    (run_pipeline envExample worldEmpty).1 = .ok ⟨2, 2, 5, .fin 1300 (-2)⟩ ∧
    ((⟨2, 2, 5, .fin 1300 (-2)⟩ : Stats).rows_in = (⟨2, 2, 5, .fin 1300 (-2)⟩ : Stats).rows_out ∧
     (⟨2, 2, 5, .fin 1300 (-2)⟩ : Stats).rows_in = ((acceptedOf sampleHeader envExample.input).length : Int)) :=
  ⟨rfl, rfl, c1_rows_in_equals_rows_out envExample worldEmpty _ sampleHeader rfl rfl⟩

/-- C5: on the worked example input the run returns
`rows_in = rows_out = 2`, `total_qty = 5`, `gross_revenue = 13.00`
(coefficient 1300, exponent −2, i.e. the rational 13), the second data row
is rejected at line 3 for an empty sku, the third at line 4 for a
non-positive qty, and the clean output holds exactly the `A1` and `A3`
rows, in order, after the header. -/
theorem c5_worked_example :
    (run_pipeline envExample worldEmpty).1 = .ok ⟨2, 2, 5, .fin 1300 (-2)⟩ ∧
    (run_pipeline envExample worldEmpty).2.1.cleanOut =
      some ⟨OUTPUT_FIELDNAMES,
            [⟨"A1", 2, .fin 350 (-2)⟩, ⟨"A3", 3, .fin 200 (-2)⟩]⟩ ∧
    validate_record sampleHeader 3 ["", "1", "1.00"] =
      .invalid 3 "sku must be non-empty" ∧
    validate_record sampleHeader 4 ["A2", "0", "5.00"] =
      .invalid 4 "qty must be > 0" ∧
    decValQ (.fin 1300 (-2)) = some 13 := by
  refine ⟨rfl, rfl, rfl, rfl, ?_⟩
  show some (finValQ 1300 (-2)) = some 13
  norm_num [finValQ]

/-- C7: a non-existent input location fails with `InputNotFound` before
touching anything: the file-system state is returned unchanged (no output
created or modified, no parent directory created) and no I/O event occurs. -/
theorem c7_input_not_found (env : Env) (w : World) (h : env.inputExists = false) :
    run_pipeline env w =
      (.error (.inputNotFound ("Input file not found: " ++ env.inputPath)), w, []) := by
  unfold run_pipeline
  simp [h]

/-- An environment whose input path does not exist. -/
def envAbsent : Env := ⟨false, ⟨none, []⟩, "missing.csv", "out/stats.json", true⟩

/-- Witness for C7 at a concrete absent input. -/
theorem c7_input_not_found_witness :
    envAbsent.inputExists = false ∧
    run_pipeline envAbsent worldEmpty =
      (.error (.inputNotFound ("Input file not found: " ++ envAbsent.inputPath)),
       worldEmpty, []) :=
  ⟨rfl, c7_input_not_found envAbsent worldEmpty rfl⟩

/-- C10: a completely empty input file (`fieldnames` is `None`) fails with
`InputFormat` carrying exactly the no-header message, before any data row
is processed (the trace holds no row write), and the clean output is
header-only. -/
theorem c10_no_header (env : Env) (w : World) (hex : env.inputExists = true)
    (hh : env.input.header? = none) :
    (run_pipeline env w).1 =
      .error (.inputFormat "CSV has no header row (fieldnames missing).") ∧
    (run_pipeline env w).2.1.cleanOut = some ⟨OUTPUT_FIELDNAMES, []⟩ ∧
    (run_pipeline env w).2.2 =
      [.openInput, .openCleanOut, .writeHeader, .closeStreams] := by
  unfold run_pipeline
  simp [hex, hh]

/-- An environment whose input file is completely empty. -/
def envNoHeader : Env := ⟨true, ⟨none, []⟩, "empty.csv", "out/stats.json", true⟩

/-- Witness for C10 at a concrete empty input file. -/
theorem c10_no_header_witness :
    envNoHeader.inputExists = true ∧ envNoHeader.input.header? = none ∧
    ((run_pipeline envNoHeader worldEmpty).1 =
       .error (.inputFormat "CSV has no header row (fieldnames missing).") ∧
     (run_pipeline envNoHeader worldEmpty).2.1.cleanOut = some ⟨OUTPUT_FIELDNAMES, []⟩ ∧
     (run_pipeline envNoHeader worldEmpty).2.2 =
       [.openInput, .openCleanOut, .writeHeader, .closeStreams]) :=
  ⟨rfl, rfl, c10_no_header envNoHeader worldEmpty rfl rfl⟩

/-- C6: a header lacking at least one required column fails fatally with
`InputFormat` (naming the sorted missing columns) before any data row is
read: no row event occurs, the clean output artifact holds only the
header, and the stats document is left untouched. -/
theorem c6_missing_columns (env : Env) (w : World) (fns : List String)
    (hex : env.inputExists = true) (hh : env.input.header? = some fns)
    (hmiss : REQUIRED_COLUMNS.filter (fun c => !(fns.contains c)) ≠ []) :
    (run_pipeline env w).1 =
      .error (.inputFormat ("CSV missing required columns: "
        ++ pyListRepr (pySortStr (REQUIRED_COLUMNS.filter (fun c => !(fns.contains c)))))) ∧
    (run_pipeline env w).2.1.cleanOut = some ⟨OUTPUT_FIELDNAMES, []⟩ ∧
    (run_pipeline env w).2.1.statsOut = w.statsOut ∧
    (run_pipeline env w).2.2 =
      [.openInput, .openCleanOut, .writeHeader, .closeStreams] := by
  unfold run_pipeline
  simp only [hex, Bool.true_eq_false, if_false]
  rw [hh]
  simp only [ne_eq, hmiss, not_false_eq_true, if_true]
  simp

/-- An environment whose input header lacks the `qty` column. -/
def envMissingCol : Env :=
  ⟨true, ⟨some ["sku", "unit_price"], [["A1", "3.50"]]⟩, "in.csv", "out/stats.json", true⟩

/-- Witness for C6 at a concrete header missing `qty`. -/
theorem c6_missing_columns_witness :
    envMissingCol.inputExists = true ∧
    envMissingCol.input.header? = some ["sku", "unit_price"] ∧
    REQUIRED_COLUMNS.filter (fun c => !(["sku", "unit_price"].contains c)) ≠ [] ∧
    ((run_pipeline envMissingCol worldEmpty).1 =
       .error (.inputFormat ("CSV missing required columns: "
         ++ pyListRepr (pySortStr (REQUIRED_COLUMNS.filter
              (fun c => !(["sku", "unit_price"].contains c)))))) ∧
     (run_pipeline envMissingCol worldEmpty).2.1.cleanOut = some ⟨OUTPUT_FIELDNAMES, []⟩ ∧
     (run_pipeline envMissingCol worldEmpty).2.1.statsOut = worldEmpty.statsOut ∧
     (run_pipeline envMissingCol worldEmpty).2.2 =
       [.openInput, .openCleanOut, .writeHeader, .closeStreams]) :=
  ⟨rfl, rfl, by decide,
   c6_missing_columns envMissingCol worldEmpty ["sku", "unit_price"] rfl rfl (by decide)⟩

/-- C3 (failing input): the validator does not always produce a `Row` or a
`ValidationFailure`.  `Decimal("NaN")` parses successfully in check 4, and
check 5's `unit_price < 0` comparison on that NaN signals
`InvalidOperation` (raised under the default traps), which no handler in
`parse_rows` catches. -/
theorem c3_nan_escapes_validator :
    pyDecimal? "NaN" = some .nan ∧
    validate_record sampleHeader 2 ["A1", "1", "NaN"] = .invalidOp :=
  ⟨rfl, rfl⟩

/-- The input file whose single data row carries a NaN `unit_price`. -/
def csvNaN : CsvFile := ⟨some sampleHeader, [["A1", "1", "NaN"]]⟩

/-- Environment running the NaN input. -/
def envNaN : Env := ⟨true, csvNaN, "data/input.csv", "out/stats.json", true⟩

/-- C4 (failing input): on the NaN input, `run_pipeline` neither returns a
`Stats` nor fails with one of the three taxonomy kinds: the uncaught
`decimal.InvalidOperation` escapes (it is not a `ValidationErr`, so the
generator's handler does not recover it, and it is not an `OSError`, so
the outer handler does not wrap it). -/
theorem c4_invalid_operation_escapes :
    (run_pipeline envNaN worldEmpty).1 = .error PErr.invalidOperation ∧
    (∀ msg, PErr.invalidOperation ≠ PErr.inputNotFound msg) ∧
    (∀ msg, PErr.invalidOperation ≠ PErr.inputFormat msg) ∧
    (∀ msg, PErr.invalidOperation ≠ PErr.outputWrite msg) :=
  ⟨rfl, fun _ => by simp, fun _ => by simp, fun _ => by simp⟩

/-- C9: a record missing any of the three required fields (e.g. a short
line, where `DictReader` fills the value with `None`) is rejected with an
ordinary per-line validation failure — for a missing sku with exactly the
"sku must be non-empty" message — and the loop continues with the next
record instead of crashing. -/
theorem c9_missing_fields_rejected (fns : List String) (i : Nat) (cells : List String)
    (rest : List (List String)) (a : LoopAcc)
    (h : dictGet fns cells "sku" = none ∨ dictGet fns cells "qty" = none ∨
         dictGet fns cells "unit_price" = none) :
    (∃ msg, validate_record fns i cells = .invalid i msg) ∧
    (dictGet fns cells "sku" = none →
       validate_record fns i cells = .invalid i "sku must be non-empty") ∧
    pipeline_loop fns i (cells :: rest) a = pipeline_loop fns (i + 1) rest a := by
  have hmain : ∃ msg, validate_record fns i cells = .invalid i msg := by
    by_cases h1 : pyStrip ((dictGet fns cells "sku").getD "") = ""
    · exact ⟨"sku must be non-empty", by simp [validate_record, h1]⟩
    · rcases h with hs | hq | hp
      · rw [hs] at h1
        exact absurd rfl h1
      · refine ⟨"qty must be an integer (got "
            ++ pyRepr (pyStrip ((dictGet fns cells "qty").getD "")) ++ ")", ?_⟩
        unfold validate_record
        rw [if_neg h1, hq]
        rfl
      · rcases h2 : pyInt? (pyStrip ((dictGet fns cells "qty").getD "")) with _ | qty
        · refine ⟨"qty must be an integer (got "
              ++ pyRepr (pyStrip ((dictGet fns cells "qty").getD "")) ++ ")", ?_⟩
          unfold validate_record
          rw [if_neg h1, h2]
        · by_cases h3 : qty ≤ 0
          · refine ⟨"qty must be > 0", ?_⟩
            unfold validate_record
            rw [if_neg h1, h2]
            simp [h3]
          · refine ⟨"unit_price must be a decimal number (got "
                ++ pyRepr (pyStrip ((dictGet fns cells "unit_price").getD "")) ++ ")", ?_⟩
            unfold validate_record
            rw [if_neg h1, h2]
            simp only [h3, if_false, hp]
            rfl
  refine ⟨hmain, ?_, ?_⟩
  · intro hs
    unfold validate_record
    rw [hs]
    rfl
  · obtain ⟨msg, hmsg⟩ := hmain
    simp [pipeline_loop, hmsg]

/-- Witness for C9 at a concrete short record (no fields at all). -/
theorem c9_missing_fields_rejected_witness :
    dictGet sampleHeader [] "sku" = none ∧
    ((∃ msg, validate_record sampleHeader 2 [] = .invalid 2 msg) ∧
     (dictGet sampleHeader [] "sku" = none →
        validate_record sampleHeader 2 [] = .invalid 2 "sku must be non-empty") ∧
     pipeline_loop sampleHeader 2 ([] :: []) initAcc = pipeline_loop sampleHeader 3 [] initAcc) :=
  ⟨rfl, c9_missing_fields_rejected sampleHeader 2 [] [] initAcc (Or.inl rfl)⟩

/-- Splitting a list that ends in `[y, x]`, with `x` occurring nowhere
else, at an occurrence of `x`: the prefix of the split contains `y`. -/
theorem mem_left_of_split_at_last {α : Type} (x y : α) (hxy : x ≠ y) :
    ∀ (A pre post : List α), x ∉ A → A ++ [y, x] = pre ++ x :: post → y ∈ pre := by
  intro A
  induction A with
  | nil =>
    intro pre post hxA h
    cases pre with
    | nil =>
      simp only [List.nil_append, List.cons.injEq] at h
      exact absurd h.1.symm hxy
    | cons b pre2 =>
      simp only [List.nil_append, List.cons_append, List.cons.injEq] at h
      exact h.1 ▸ List.mem_cons_self _ _
  | cons a A2 ih =>
    intro pre post hxA h
    cases pre with
    | nil =>
      simp only [List.cons_append, List.nil_append, List.cons.injEq] at h
      exact absurd (h.1 ▸ List.mem_cons_self a A2) hxA
    | cons b pre2 =>
      simp only [List.cons_append, List.cons.injEq] at h
      have hy := ih pre2 post (fun hx => hxA (List.mem_cons_of_mem _ hx)) h.2
      exact List.mem_cons_of_mem _ hy

/-- C8: whenever the stats write occurs in the run's trace, both streams
were already closed strictly before it; and a failure specifically while
writing the stats document is reported as `OutputWrite` (a kind distinct
by construction from `InputFormat`), with the clean-output artifact left
fully written (it holds exactly the accepted rows) and the stats document
untouched. -/
theorem c8_stats_written_after_close (env : Env) (w : World) (fns : List String)
    (pre post : List PEvent)
    (hh : env.input.header? = some fns)
    (hsplit : (run_pipeline env w).2.2 = pre ++ PEvent.writeStats :: post) :
    PEvent.closeStreams ∈ pre ∧
    (env.statsWriteOk = false →
       (run_pipeline env w).1 =
         .error (.outputWrite ("Failed to write stats JSON: " ++ env.statsPath)) ∧
       (run_pipeline env w).2.1.cleanOut =
         some ⟨OUTPUT_FIELDNAMES, acceptedOf fns env.input⟩ ∧
       (run_pipeline env w).2.1.statsOut = w.statsOut) := by
  cases hex : env.inputExists with
  | false =>
    unfold run_pipeline at hsplit
    simp [hex] at hsplit
  | true =>
    unfold run_pipeline at hsplit ⊢
    simp only [hex, Bool.true_eq_false, if_false] at hsplit ⊢
    rw [hh] at hsplit ⊢
    by_cases hm : REQUIRED_COLUMNS.filter (fun c => !(fns.contains c)) = []
    · simp only [hm, ne_eq, not_true_eq_false, if_false] at hsplit ⊢
      rcases hpl : pipeline_loop fns 2 (effectiveRecords env.input) initAcc with ⟨acc, e?⟩
      have hev : ∀ ev ∈ acc.events, ∃ r, ev = PEvent.writeRow r := by
        intro ev hmem
        have hsub := pipeline_loop_events fns (effectiveRecords env.input) 2 initAcc ev
        rw [hpl] at hsub
        rcases hsub hmem with hin | hr
        · simp [initAcc] at hin
        · exact hr
      have hnws : PEvent.writeStats ∉
          ([PEvent.openInput, PEvent.openCleanOut, PEvent.writeHeader] ++ acc.events) := by
        intro hin
        rcases List.mem_append.mp hin with hin | hin
        · simp at hin
        · obtain ⟨r, hr⟩ := hev _ hin
          exact PEvent.noConfusion hr
      simp only [hpl] at hsplit ⊢
      cases e? with
      | some e =>
        have hws : PEvent.writeStats ∈ pre ++ PEvent.writeStats :: post := by simp
        rw [← hsplit] at hws
        have hws2 : PEvent.writeStats ∈
            (([PEvent.openInput, PEvent.openCleanOut, PEvent.writeHeader] ++ acc.events)
              ++ [PEvent.closeStreams]) := by
          simpa [List.append_assoc] using hws
        rcases List.mem_append.mp hws2 with h | h
        · exact (hnws h).elim
        · simp at h
      | none =>
        obtain ⟨-, -, -, -, hwr, -⟩ :=
          pipeline_loop_spec fns (effectiveRecords env.input) 2 initAcc acc hpl
        have hacc : acc.written = acceptedOf fns env.input := by
          simpa [initAcc, acceptedOf] using hwr
        cases hsw : env.statsWriteOk with
        | true =>
          simp only [hsw, if_true] at hsplit ⊢
          have hsplit2 :
              ([PEvent.openInput, PEvent.openCleanOut, PEvent.writeHeader] ++ acc.events)
                ++ [PEvent.closeStreams, PEvent.writeStats] =
              pre ++ PEvent.writeStats :: post := by
            simpa [List.append_assoc] using hsplit
          refine ⟨mem_left_of_split_at_last PEvent.writeStats PEvent.closeStreams
            (fun hc => PEvent.noConfusion hc) _ pre post hnws hsplit2, ?_⟩
          intro hfalse
          exact Bool.noConfusion hfalse
        | false =>
          simp only [hsw, Bool.false_eq_true, if_false] at hsplit ⊢
          have hsplit2 :
              ([PEvent.openInput, PEvent.openCleanOut, PEvent.writeHeader] ++ acc.events)
                ++ [PEvent.closeStreams, PEvent.writeStats] =
              pre ++ PEvent.writeStats :: post := by
            simpa [List.append_assoc] using hsplit
          refine ⟨mem_left_of_split_at_last PEvent.writeStats PEvent.closeStreams
            (fun hc => PEvent.noConfusion hc) _ pre post hnws hsplit2, ?_⟩
          intro _
          refine ⟨?_, ?_, ?_⟩ <;> simp [hacc]
    · simp only [ne_eq, hm, not_false_eq_true, if_true] at hsplit ⊢
      have hws : PEvent.writeStats ∈ pre ++ PEvent.writeStats :: post := by simp
      rw [← hsplit] at hws
      simp at hws

/-- Environment with one valid row whose stats write fails. -/
def envStatsFail : Env :=
  ⟨true, ⟨some sampleHeader, [["A1", "2", "3.50"]]⟩, "in.csv", "out/stats.json", false⟩

/-- Witness for C8 at a concrete failing stats write: the trace splits at
the stats-write event with the close event in the prefix, and the run
reports `OutputWrite` with the clean output fully written. -/
theorem c8_stats_written_after_close_witness :
    envStatsFail.input.header? = some sampleHeader ∧
    (run_pipeline envStatsFail worldEmpty).2.2 =
      [PEvent.openInput, PEvent.openCleanOut, PEvent.writeHeader,
       PEvent.writeRow ⟨"A1", 2, .fin 350 (-2)⟩, PEvent.closeStreams]
        ++ PEvent.writeStats :: [] ∧
    (PEvent.closeStreams ∈
       [PEvent.openInput, PEvent.openCleanOut, PEvent.writeHeader,
        PEvent.writeRow ⟨"A1", 2, .fin 350 (-2)⟩, PEvent.closeStreams] ∧
     (envStatsFail.statsWriteOk = false →
        (run_pipeline envStatsFail worldEmpty).1 =
          .error (.outputWrite ("Failed to write stats JSON: " ++ envStatsFail.statsPath)) ∧
        (run_pipeline envStatsFail worldEmpty).2.1.cleanOut =
          some ⟨OUTPUT_FIELDNAMES, acceptedOf sampleHeader envStatsFail.input⟩ ∧
        (run_pipeline envStatsFail worldEmpty).2.1.statsOut = worldEmpty.statsOut)) :=
  ⟨rfl, rfl,
   c8_stats_written_after_close envStatsFail worldEmpty sampleHeader
     [PEvent.openInput, PEvent.openCleanOut, PEvent.writeHeader,
      PEvent.writeRow ⟨"A1", 2, .fin 350 (-2)⟩, PEvent.closeStreams] []
     rfl rfl⟩

/-! ## Exactness of the decimal accumulation within context precision -/

/-- Rounding is the identity on coefficients of at most `DECIMAL_PREC`
digits. -/
theorem decFix_id (m e : Int)
    (h1 : nDigits m.natAbs ≤ DECIMAL_PREC)
    (h2 : DECIMAL_ETINY ≤ e)
    (h3 : e + (nDigits m.natAbs : Int) - 1 ≤ DECIMAL_EMAX) :
    decFix m e = some (.fin m e) := by
  unfold decFix
  by_cases hm : m = 0
  · rw [if_pos hm]
    subst hm
    have hd : nDigits (0 : Int).natAbs = 1 := rfl
    rw [hd] at h3
    have hcl : min (max e DECIMAL_ETINY) DECIMAL_EMAX = e := by
      simp only [DECIMAL_ETINY, DECIMAL_EMIN, DECIMAL_PREC, DECIMAL_EMAX] at h2 h3 ⊢
      omega
    rw [hcl]
  · rw [if_neg hm]
    have hnotop : ¬(DECIMAL_ETOP < (nDigits m.natAbs : Int) + e - (DECIMAL_PREC : Int)) := by
      simp only [DECIMAL_ETOP]
      omega
    rw [if_neg hnotop]
    have hnoround : ¬(e < (if e + (nDigits m.natAbs : Int) - 1 < DECIMAL_EMIN
        then DECIMAL_ETINY
        else (nDigits m.natAbs : Int) + e - (DECIMAL_PREC : Int))) := by
      by_cases hsub : e + (nDigits m.natAbs : Int) - 1 < DECIMAL_EMIN
      · rw [if_pos hsub]
        omega
      · rw [if_neg hsub]
        omega
    rw [if_neg hnoround]

/-- Underflow example of the default context: the product
`Decimal(1) * Decimal("1E-1000030")` lies below `Etiny` and is rounded to
`0E-1000026` (`Underflow` is not trapped, so no exception is raised). -/
theorem decMul_underflow_example :
    decMul (.fin 1 0) (.fin 1 (-1000030)) = some (.fin 0 (-1000026)) := rfl

/-- Overflow example of the default context: the product
`Decimal(1) * Decimal("1E+1000000")` exceeds `Emax` and raises the trapped
`Overflow`. -/
theorem decMul_overflow_example :
    decMul (.fin 1 0) (.fin 1 1000000) = none := rfl

/-- The aligned sum of two finite decimals has the exact value of the sum. -/
theorem finValQ_align (m1 e1 m2 e2 : Int) :
    finValQ (alignAdd m1 e1 m2 e2) (min e1 e2) = finValQ m1 e1 + finValQ m2 e2 := by
  have h10 : (10 : ℚ) ≠ 0 := by norm_num
  have k1 : ((e1 - min e1 e2).toNat : Int) = e1 - min e1 e2 := Int.toNat_of_nonneg (by omega)
  have k2 : ((e2 - min e1 e2).toNat : Int) = e2 - min e1 e2 := Int.toNat_of_nonneg (by omega)
  have h1 : e1 - min e1 e2 + min e1 e2 = e1 := by omega
  have h2 : e2 - min e1 e2 + min e1 e2 = e2 := by omega
  unfold finValQ alignAdd
  push_cast
  rw [add_mul, mul_assoc, mul_assoc, ← zpow_natCast (10 : ℚ) ((e1 - min e1 e2).toNat),
      ← zpow_natCast (10 : ℚ) ((e2 - min e1 e2).toNat), ← zpow_add₀ h10, ← zpow_add₀ h10,
      k1, k2, h1, h2]

/-- The product coefficient of `Decimal(qty) * price` has the exact value
`qty * price`. -/
theorem finValQ_qmul (q pm pe : Int) :
    finValQ (q * pm) (0 + pe) = (q : ℚ) * finValQ pm pe := by
  unfold finValQ
  push_cast
  rw [zero_add]
  ring

/-- The value `m × 10 ^ e` is exactly representable in the default
decimal context: at most `DECIMAL_PREC` significant digits, exponent at
least `Etiny`, adjusted exponent at most `Emax`.  These are exactly the
conditions under which `decFix` returns the value unchanged
(`decFix_id`). -/
def exactInContext (m e : Int) : Prop :=
  nDigits m.natAbs ≤ DECIMAL_PREC ∧ DECIMAL_ETINY ≤ e ∧
  e + (nDigits m.natAbs : Int) - 1 ≤ DECIMAL_EMAX

instance (m e : Int) : Decidable (exactInContext m e) :=
  inferInstanceAs (Decidable (_ ∧ _ ∧ _))

/-- Decidable check that accumulating a list of rows from the
representation `(gm, ge)` never needs rounding, underflow or overflow:
every price is finite and every intermediate product and aligned running
sum is exactly representable in the default context. -/
def losslessGo : List Row → Int × Int → Bool
  | [], _ => true
  | r :: rs, (gm, ge) =>
    match r.unit_price with
    | .fin pm pe =>
      if exactInContext (r.qty * pm) (0 + pe) then
        if exactInContext (alignAdd gm ge (r.qty * pm) (0 + pe)) (min ge (0 + pe)) then
          losslessGo rs (alignAdd gm ge (r.qty * pm) (0 + pe), min ge (0 + pe))
        else false
      else false
    | _ => false

/-- The accepted rows of an input accumulate without any context
rounding, underflow or overflow. -/
def lossless (fns : List String) (f : CsvFile) : Bool :=
  losslessGo (acceptedOf fns f) (0, 0)

/-- Under `losslessGo`, the decimal accumulation is exact: it produces a
finite decimal whose rational value is the starting value plus the exact
rational sum of the rows. -/
theorem grossOf_lossless :
    ∀ (rows : List Row) (gm ge : Int), losslessGo rows (gm, ge) = true →
      ∃ gm2 ge2, grossOf rows (.fin gm ge) = some (.fin gm2 ge2) ∧
        finValQ gm2 ge2 = finValQ gm ge + exactSum rows := by
  intro rows
  induction rows with
  | nil =>
    intro gm ge _
    exact ⟨gm, ge, rfl, by simp [exactSum]⟩
  | cons r rs ih =>
    intro gm ge h
    rcases hup : r.unit_price with ⟨pm, pe⟩ | b | _
    · simp only [losslessGo, hup] at h
      by_cases h1 : exactInContext (r.qty * pm) (0 + pe)
      case neg => rw [if_neg h1] at h; exact absurd h (by simp)
      rw [if_pos h1] at h
      by_cases h2 : exactInContext (alignAdd gm ge (r.qty * pm) (0 + pe)) (min ge (0 + pe))
      case neg => rw [if_neg h2] at h; exact absurd h (by simp)
      rw [if_pos h2] at h
      obtain ⟨h1a, h1b, h1c⟩ := h1
      obtain ⟨h2a, h2b, h2c⟩ := h2
      have hmul : decMul (.fin r.qty 0) r.unit_price = some (.fin (r.qty * pm) (0 + pe)) := by
        rw [hup]
        simp only [decMul]
        exact decFix_id _ _ h1a h1b h1c
      have hadd : decAdd (.fin gm ge) (.fin (r.qty * pm) (0 + pe)) =
          some (.fin (alignAdd gm ge (r.qty * pm) (0 + pe)) (min ge (0 + pe))) := by
        simp only [decAdd]
        exact decFix_id _ _ h2a h2b h2c
      obtain ⟨gm2, ge2, hg, hv⟩ := ih _ _ h
      refine ⟨gm2, ge2, ?_, ?_⟩
      · simp only [grossOf, hmul, hadd]
        exact hg
      · rw [hv, finValQ_align, finValQ_qmul]
        simp only [exactSum, priceQ, hup]
        ring
    · simp only [losslessGo, hup] at h
      exact absurd h (by simp)
    · simp only [losslessGo, hup] at h
      exact absurd h (by simp)

/-- C2 (amended): for every input whose header contains the required
columns and whose run returns a `Stats`, rejected rows contribute nothing:
`total_qty` is exactly the quantity sum over accepted rows, and — whenever
every intermediate product and running sum is exactly representable in the
default decimal context (at most 28 significant digits, exponent at least
`Etiny`, adjusted exponent at most `Emax`) — `gross_revenue` has exactly
the rational value `Σ (qty_i * unit_price_i)` over the accepted rows
only. -/
theorem c2_exact_revenue_within_context (env : Env) (w : World) (stats : Stats)
    (fns : List String)
    (hh : env.input.header? = some fns)
    (hrun : (run_pipeline env w).1 = .ok stats)
    (hl : lossless fns env.input = true) :
    stats.total_qty = sumQty (acceptedOf fns env.input) ∧
    decValQ stats.gross_revenue = some (exactGrossOf fns env.input) := by
  obtain ⟨acc, hpl, hstats, -, -⟩ := run_pipeline_ok_inv env w stats fns hh hrun
  obtain ⟨-, -, h3, h4, -, -⟩ :=
    pipeline_loop_spec fns (effectiveRecords env.input) 2 initAcc acc hpl
  subst hstats
  constructor
  · simpa [initAcc, acceptedOf] using h3
  · obtain ⟨gm2, ge2, hg, hv⟩ := grossOf_lossless (acceptedOf fns env.input) 0 0 hl
    have h4' : grossOf (acceptedOf fns env.input) (.fin 0 0) = some acc.gross := h4
    rw [h4'] at hg
    have hgross : acc.gross = .fin gm2 ge2 := Option.some.inj hg
    show decValQ acc.gross = some (exactGrossOf fns env.input)
    rw [hgross]
    show some (finValQ gm2 ge2) = some (exactGrossOf fns env.input)
    rw [hv]
    unfold exactGrossOf finValQ
    norm_num

/-- Witness for the amended C2 at the worked example (no rounding occurs
there). -/
theorem c2_exact_revenue_within_context_witness :
    envExample.input.header? = some sampleHeader ∧
    (run_pipeline envExample worldEmpty).1 = .ok ⟨2, 2, 5, .fin 1300 (-2)⟩ ∧
    lossless sampleHeader envExample.input = true ∧
    ((⟨2, 2, 5, .fin 1300 (-2)⟩ : Stats).total_qty =
       sumQty (acceptedOf sampleHeader envExample.input) ∧
     decValQ (⟨2, 2, 5, .fin 1300 (-2)⟩ : Stats).gross_revenue =
       some (exactGrossOf sampleHeader envExample.input)) :=
  ⟨rfl, rfl, rfl,
   c2_exact_revenue_within_context envExample worldEmpty _ sampleHeader rfl rfl rfl⟩

/-- Input whose single accepted row needs 29 significant digits for its
exact revenue: qty 3 at unit price `0.9999999999999999999999999999`
(28 nines). -/
def csvRound : CsvFile :=
  ⟨some sampleHeader, [["A1", "3", "0.9999999999999999999999999999"]]⟩

/-- Environment running the 29-digit input. -/
def envRound : Env := ⟨true, csvRound, "in.csv", "out/stats.json", true⟩

/-- C2 (counterexample to the claim as stated): with 28 nines of decimal
places in `unit_price`, the default context rounds `3 × 0.99…9` half-even
to 28 significant digits, so the returned `gross_revenue` is exactly 3 —
not the exact sum `2.9999999999999999999999999997` — refuting exactness
for arbitrarily many decimal places (the rounding is decimal, not binary
floating point). -/
theorem c2_rounding_counterexample :
    (run_pipeline envRound worldEmpty).1 =
      .ok ⟨1, 1, 3, .fin 3000000000000000000000000000 (-27)⟩ ∧
    decValQ (PyDec.fin 3000000000000000000000000000 (-27)) ≠
      some (exactGrossOf sampleHeader csvRound) := by
  constructor
  · rfl
  · intro hcontra
    have hval : finValQ 3000000000000000000000000000 (-27)
        = exactGrossOf sampleHeader csvRound := Option.some.inj hcontra
    have hrhs : exactGrossOf sampleHeader csvRound
        = ((3 : Int) : ℚ) * finValQ 9999999999999999999999999999 (-28) + 0 := rfl
    rw [hrhs] at hval
    unfold finValQ at hval
    norm_num at hval
